import Mathlib

/-!
Verification development for the dual-backend file manager frontend
(`src/app/api/files/bulk/route.ts`, `src/app/page.tsx`, and the JSON merge
modal component).

Part 1: the JSON value model and the merge strategies implemented in the
merge modal (`deepMerge`, the `shallow` spread, `override`, `combine`).

JSON values are modelled as a closed tagged variant.  JavaScript objects are
modelled as ordered association lists of string keys (insertion order is the
iteration order of `for ... in` and of object spread, matching V8 semantics
for string keys); objects produced by `JSON.parse` have pairwise distinct
keys, which is the `nodupKeysB` predicate below.
-/


inductive Json where
  | null
  | bool (b : Bool)
  | num (n : Int)
  | str (s : String)
  | arr (xs : List Json)
  | obj (kvs : List (String × Json))

/-- JavaScript `obj[key]` / `key in obj` on an ordered association list:
the binding of the first occurrence of the key, if any. -/
def lookupKey : List (String × Json) → String → Option Json
  | [], _ => none
  | (k0, v0) :: rest, k => if k0 = k then some v0 else lookupKey rest k

/-- JavaScript property assignment `obj[key] = v` on an ordered association
list: overwrite in place if the key is present, append otherwise. -/
def setKey : List (String × Json) → String → Json → List (String × Json)
  | [], k, v => [(k, v)]
  | (k0, v0) :: rest, k, v =>
      if k0 = k then (k0, v) :: rest else (k0, v0) :: setKey rest k v

/-- Does the key occur in the association list? -/
def keyMem (k : String) : List (String × Json) → Bool
  | [] => false
  | (k0, _) :: rest => if k = k0 then true else keyMem k rest

/-- Keys are pairwise distinct (true of every object built by `JSON.parse`). -/
def nodupKeysB : List (String × Json) → Bool
  | [] => true
  | (k, _) :: rest => !keyMem k rest && nodupKeysB rest

/-
`deepMerge` from the merge modal:

    if (Array.isArray(obj1) && Array.isArray(obj2)) return [...obj1, ...obj2];
    if (obj1 && typeof obj1 === "object" && obj2 && typeof obj2 === "object"
        && !Array.isArray(obj1) && !Array.isArray(obj2)) {
      const result = { ...obj1 };
      for (const key in obj2) {
        if (key in result) result[key] = deepMerge(result[key], obj2[key]);
        else result[key] = obj2[key];
      }
      return result;
    }
    return obj2; // Override with second value

`deepMergeObj result kvs2` is the `for (const key in obj2)` loop with
accumulator `result` (initially `{ ...obj1 }`, i.e. `kvs1` itself).  Note
that `null` fails the `obj1 && typeof obj1 === "object"` guard, so `null`
is never recursed into.
-/
mutual

/-- The `deepMerge` function of the merge modal (the `deep` strategy). -/
def deepMerge : Json → Json → Json
  | .arr xs, .arr ys => .arr (xs ++ ys)
  | .obj kvs1, .obj kvs2 => .obj (deepMergeObj kvs1 kvs2)
  | _, b => b
termination_by _a b => sizeOf b

/-- The `for (const key in obj2)` loop of `deepMerge`. -/
def deepMergeObj : List (String × Json) → List (String × Json) → List (String × Json)
  | res, [] => res
  | res, (k, v) :: rest =>
      match lookupKey res k with
      | some w => deepMergeObj (setKey res k (deepMerge w v)) rest
      | none => deepMergeObj (setKey res k v) rest
termination_by _res kvs => sizeOf kvs

end


/-- JavaScript object spread `{ ...kvs1, ...kvs2 }`: start from the first
object's bindings and assign each binding of the second in order. -/
def jsSpread (kvs1 kvs2 : List (String × Json)) : List (String × Json) :=
  kvs2.foldl (fun acc kv => setKey acc kv.1 kv.2) kvs1

/-- The `shallow` strategy of the merge modal, `merged = { ...data1, ...data2 }`,
on object inputs (the only inputs the SHALLOW contract covers; spread of
non-object JSON values is outside the scope of this development). -/
def shallowMerge : Json → Json → Option Json
  | .obj kvs1, .obj kvs2 => some (.obj (jsSpread kvs1 kvs2))
  | _, _ => none

/-- `true` iff the value is a JSON object (JS: non-null, `typeof === "object"`,
not an array). -/
def isObj : Json → Bool
  | .obj _ => true
  | _ => false

/-- `true` iff the value is a JSON array (JS: `Array.isArray`). -/
def isArr : Json → Bool
  | .arr _ => true
  | _ => false

mutual

/-- Well-formed parsed JSON: every object has pairwise distinct keys.
Every value produced by `JSON.parse` satisfies this. -/
def wfB : Json → Bool
  | .arr xs => wfList xs
  | .obj kvs => nodupKeysB kvs && wfKvs kvs
  | _ => true

/-- `wfB` on every element of an array. -/
def wfList : List Json → Bool
  | [] => true
  | x :: xs => wfB x && wfList xs

/-- `wfB` on every value of an object. -/
def wfKvs : List (String × Json) → Bool
  | [] => true
  | (_, v) :: rest => wfB v && wfKvs rest

end


mutual

/-- The transformation that `deepMerge X X` actually performs (proved below):
arrays met by the merge — at the root or under object keys — become their
self-concatenation with elements unchanged; object values are transformed
recursively; scalars are unchanged. -/
def selfDup : Json → Json
  | .arr xs => .arr (xs ++ xs)
  | .obj kvs => .obj (selfDupKvs kvs)
  | v => v

/-- `selfDup` on every value of an object, keys and order unchanged. -/
def selfDupKvs : List (String × Json) → List (String × Json)
  | [] => []
  | (k, v) :: rest => (k, selfDup v) :: selfDupKvs rest

end


mutual

/-- The transformation described literally by the sentence "`merge(X, X, DEEP)`
reproduces `X` except that every array inside `X` is replaced by its
self-concatenation": it rewrites arrays at every depth, including arrays
nested inside other arrays. -/
def claimArrayDup : Json → Json
  | .arr xs => .arr (claimArrayDupList xs ++ claimArrayDupList xs)
  | .obj kvs => .obj (claimArrayDupKvs kvs)
  | v => v

/-- `claimArrayDup` on every element of an array. -/
def claimArrayDupList : List Json → List Json
  | [] => []
  | x :: xs => claimArrayDup x :: claimArrayDupList xs

/-- `claimArrayDup` on every value of an object. -/
def claimArrayDupKvs : List (String × Json) → List (String × Json)
  | [] => []
  | (k, v) :: rest => (k, claimArrayDup v) :: claimArrayDupKvs rest

end

/-- Key-by-key rule of the deep merge at one key: a key only in the first
input keeps its value, a key only in the second takes the second's value,
and a key in both gets the recursive `deepMerge` of the two values. -/
def mergeLookup (a b : Option Json) : Option Json :=
  match a, b with
  | some w, some v => some (deepMerge w v)
  | some w, none => some w
  | none, some v => some v
  | none, none => none

/-!
Part 2: the bulk delete route (`src/app/api/files/bulk/route.ts`, `POST`).

The two metadata backends are modelled as association lists from record id to
the stored `filePath` (the only column the route reads), the blob area as the
list of files on disk, each file as the segment list of its resolved absolute
path.  Environmental failures (broken backend connection, malformed id, a
thrown query error) are modelled by an explicit fault oracle `Env.dbFails`;
filesystem `unlink` failures by `Env.blobFails`.  The route's working
directory `process.cwd()` is an absolute path given by its segments.
-/

/-- One element of the request's `files` array: `{ id, storageType }`. -/
structure FileInfo where
  id : String
  storageType : String
deriving DecidableEq

/-- The mutable state the route acts on: the MongoDB collection, the Postgres
`files` table (both projected to id ↦ file_path), and the blob filesystem. -/
structure BulkState where
  mongo : List (String × String)
  pg : List (String × String)
  fs : List (List String)
deriving DecidableEq

/-- Environment of one request: the working directory and the fault oracles.
`dbFails fi` means processing record `fi` throws inside the backend step
(connection failure, cast error, query error) with message `dbErrMsg fi`;
`blobFails p` means `unlink` at resolved path `p` throws. -/
structure Env where
  cwd : List String
  dbFails : FileInfo → Bool
  dbErrMsg : FileInfo → String
  blobFails : List String → Bool

/-- `filePath.startsWith("/") ? filePath.slice(1) : filePath`. -/
def stripSlash (p : String) : String :=
  match p.data with
  | '/' :: rest => String.mk rest
  | _ => p

/-- Split a path string on `'/'`. -/
def splitSlashAux : List Char → List Char → List String
  | [], cur => [String.mk cur]
  | c :: rest, cur =>
      if c = '/' then String.mk cur :: splitSlashAux rest []
      else splitSlashAux rest (cur ++ [c])

/-- Split a path string on `'/'`. -/
def splitSlash (p : String) : List String := splitSlashAux p.data []

/-- Node `path` normalization over segments: drop empty and `"."` segments,
let `".."` pop the previous segment (clamping at the root, as `path.join`
does when the first argument is absolute). -/
def resolveSegs (segs : List String) : List String :=
  segs.foldl
    (fun acc s =>
      if s = "" ∨ s = "." then acc
      else if s = ".." then acc.dropLast
      else acc ++ [s])
    []

/-- `path.join(process.cwd(), "public", cleanPath)`: the resolved absolute
path (as segments) at which the route unlinks the physical file. -/
def unlinkTarget (cwd : List String) (p : String) : List String :=
  resolveSegs (cwd ++ ["public"] ++ splitSlash (stripSlash p))

/-- Is the resolved path inside the blob root `<cwd>/public`? -/
def underPublicRoot (cwd target : List String) : Bool :=
  (cwd ++ ["public"]).isPrefixOf target

/-- The `try { await unlink(absolutePath) } catch { console.error(...) }`
step: removes the file when the unlink succeeds; a thrown unlink error
(including ENOENT) is swallowed, leaving the filesystem unchanged. -/
def tryUnlink (env : Env) (fs : List (List String)) (p : String) : List (List String) :=
  if env.blobFails (unlinkTarget env.cwd p) then fs
  else fs.filter (fun q => !(q = unlinkTarget env.cwd p : Bool))

/-- First binding of an id in a backend projection (`findById` /
`SELECT ... WHERE id = $1` taking `rows[0]`). -/
def lookupId : List (String × String) → String → Option String
  | [], _ => none
  | (k, v) :: rest, id => if k = id then some v else lookupId rest id

/-- Remove every row bound to the id (`findByIdAndDelete` /
`DELETE FROM files WHERE id = $1`). -/
def eraseId : List (String × String) → String → List (String × String)
  | [], _ => []
  | (k, v) :: rest, id =>
      if k = id then eraseId rest id else (k, v) :: eraseId rest id

/-- The `filePath` the route would read for a record, following the routing
`storageType === "mongodb" ? mongo : postgres`. -/
def lookupPath (st : BulkState) (fi : FileInfo) : Option String :=
  if fi.storageType = "mongodb" then lookupId st.mongo fi.id
  else lookupId st.pg fi.id

/-- Does the record `(id, backend)` exist in its backend? -/
def hasRecord (st : BulkState) (fi : FileInfo) : Bool :=
  (lookupPath st fi).isSome

/-- The body of `for (const fileInfo of files) { try { ... } }`, up to the
closing `results.success++`: look the record up in the routed backend,
delete it if present (remembering its `filePath`), then attempt to unlink
the physical file (unlink errors swallowed).  A backend fault throws, which
the surrounding `catch` observes as `Except.error`.  A record absent from
its backend is NOT an error: `filePath` stays `null` and the iteration
falls through to `results.success++`. -/
def processOne (env : Env) (st : BulkState) (fi : FileInfo) : Except String BulkState :=
  if env.dbFails fi then .error (env.dbErrMsg fi)
  else if fi.storageType = "mongodb" then
    match lookupId st.mongo fi.id with
    | some fp =>
        .ok { st with mongo := eraseId st.mongo fi.id, fs := tryUnlink env st.fs fp }
    | none => .ok st
  else
    match lookupId st.pg fi.id with
    | some fp =>
        .ok { st with pg := eraseId st.pg fi.id, fs := tryUnlink env st.fs fp }
    | none => .ok st

/-- The route's `results` accumulator. -/
structure BulkResult where
  success : Nat
  failed : Nat
  errors : List String
deriving DecidableEq

/-- The error line pushed by the loop's `catch`:
`Failed to delete file ${fileInfo.id}: ${error.message}`. -/
def errLine (env : Env) (fi : FileInfo) : String :=
  "Failed to delete file " ++ fi.id ++ ": " ++ env.dbErrMsg fi

/-- One loop iteration including the `catch`: on success bump
`results.success`; on a thrown per-record error bump `results.failed`, push
one error line naming the offending id, keep the state as the throw left it,
and continue. -/
def bulkStep (env : Env) (acc : BulkState × BulkResult) (fi : FileInfo) :
    BulkState × BulkResult :=
  match processOne env acc.1 fi with
  | .ok st' => (st', { acc.2 with success := acc.2.success + 1 })
  | .error msg =>
      (acc.1,
       { acc.2 with
          failed := acc.2.failed + 1
          errors := acc.2.errors ++ ["Failed to delete file " ++ fi.id ++ ": " ++ msg] })

/-- The whole `action === "delete"` loop. -/
def runBulkDelete (env : Env) (st : BulkState) (files : List FileInfo) :
    BulkState × BulkResult :=
  files.foldl (bulkStep env) (st, ⟨0, 0, []⟩)

/-- Responses of the `POST` handler (shape level: status and payload). -/
inductive BulkResponse where
  | badRequest (msg : String)
  | okResp (message : String) (results : BulkResult)
deriving DecidableEq

/-- The `POST` handler: reject a missing/falsy `action`, a missing `files`,
or an empty `files` array with status 400 before touching any backend;
run the delete loop for `action === "delete"`; reject other actions. -/
def POSTbulk (env : Env) (st : BulkState) (action : Option String)
    (files : Option (List FileInfo)) : BulkResponse × BulkState :=
  if action.getD "" = "" ∨ (files.getD []).isEmpty then
    (.badRequest "Action and files array are required", st)
  else if action = some "delete" then
    let out := runBulkDelete env st (files.getD [])
    (.okResp ("Deleted " ++ toString out.2.success ++ " files successfully") out.2, out.1)
  else
    (.badRequest "Invalid action", st)

/-!
Part 3: record identity in the UI layer (`src/app/page.tsx` and the merge
modal).  A `FileMetadata.id` is a number for Postgres rows and a string for
MongoDB documents; `JsVal` models this union, and `jsValToString` models the
JavaScript `String(f.id)` conversion the modal performs.
-/

/-- A record id as it appears in `FileMetadata`: numeric (Postgres) or
string (MongoDB `_id`). -/
inductive JsId where
  | num (n : Int)
  | str (s : String)
deriving DecidableEq

/-- JavaScript `String(id)`. -/
def jsValToString : JsId → String
  | .num n => toString n
  | .str s => s

/-- The `FileMetadata` fields these operations read. -/
structure FileMetadata where
  id : JsId
  storageType : String
  originalName : String
  filePath : String
  extension : String
deriving DecidableEq

/-- `files.filter(f => f.extension === "json")` (merge modal, line 29). -/
def jsonFilesOf (files : List FileMetadata) : List FileMetadata :=
  files.filter (fun f => f.extension = "json" : FileMetadata → Bool)

/-- The merge modal's dropdown resolution
`jsonFiles.find(f => String(f.id) === e.target.value)`: the FIRST json file
whose stringified id equals the submitted option value — the backend tag is
not consulted. -/
def resolveMergeSelection (jsonFiles : List FileMetadata) (value : String) :
    Option FileMetadata :=
  jsonFiles.find? (fun f => jsValToString f.id = value : FileMetadata → Bool)

/-- `handleFileSelect`'s membership test (page.tsx):
`prev.some(f => f.id === file.id && f.storageType === file.storageType)` —
strict equality on the id (no string conversion) AND on the backend tag. -/
def isSelectedIn (selected : List FileMetadata) (file : FileMetadata) : Bool :=
  selected.any (fun f => f.id = file.id ∧ f.storageType = file.storageType : FileMetadata → Bool)

/-- `handleFileSelect`: toggle membership of `file` in the selection, keyed
on the `(id, storageType)` pair. -/
def handleFileSelect (selected : List FileMetadata) (file : FileMetadata) :
    List FileMetadata :=
  if isSelectedIn selected file then
    selected.filter
      (fun f => ¬ (f.id = file.id ∧ f.storageType = file.storageType) : FileMetadata → Bool)
  else
    selected ++ [file]

/-! ### Concrete fixtures -/

def c5leftKvs : List (String × Json) :=
  [("a", .obj [("x", .num 1)]), ("arr", .arr [.num 1, .num 2])]

def c5rightKvs : List (String × Json) :=
  [("a", .obj [("y", .num 2)]), ("arr", .arr [.num 3])]

def c5merged : Json :=
  .obj [("a", .obj [("x", .num 1), ("y", .num 2)]), ("arr", .arr [.num 1, .num 2, .num 3])]

def c6left : List (String × Json) := [("a", .num 1), ("b", .num 2)]

def c6right : List (String × Json) := [("b", .num 3), ("c", .num 4)]

def c6merged : List (String × Json) := [("a", .num 1), ("b", .num 3), ("c", .num 4)]

/-- A nested array: an array whose single element is an array. -/
def c9X : Json := .arr [.arr [.num 1]]

def c10kvs1 : List (String × Json) := [("a", .null), ("b", .num 5)]

def c10kvs2 : List (String × Json) := [("a", .num 7), ("b", .null)]

def fiW1 : FileInfo := ⟨"1", "postgres"⟩

def fiW2 : FileInfo := ⟨"2", "mongodb"⟩

def fiW3 : FileInfo := ⟨"3", "postgres"⟩

def filesW : List FileInfo := [fiW1, fiW2, fiW3]

def envW : Env :=
  { cwd := ["srv", "app"]
    dbFails := fun fi => (fi.id = "2" : Bool)
    dbErrMsg := fun _ => "connection lost"
    blobFails := fun _ => false }

def stW : BulkState :=
  { mongo := [("2", "/uploads/b.txt")]
    pg := [("1", "/uploads/a.txt"), ("3", "/uploads/c.txt")]
    fs := [] }

/-- The six-record batch of the C2 scenario: five ids that exist (three in
Postgres, two in MongoDB) and the id `"6"` that exists in neither backend. -/
def files6 : List FileInfo :=
  [⟨"1", "postgres"⟩, ⟨"2", "postgres"⟩, ⟨"3", "postgres"⟩,
   ⟨"4", "mongodb"⟩, ⟨"5", "mongodb"⟩, ⟨"6", "postgres"⟩]

def env0 : Env :=
  { cwd := ["srv", "app"]
    dbFails := fun _ => false
    dbErrMsg := fun _ => ""
    blobFails := fun _ => false }

def st0 : BulkState :=
  { mongo := [("4", "/uploads/d.txt"), ("5", "/uploads/e.txt")]
    pg := [("1", "/uploads/a.txt"), ("2", "/uploads/b.txt"), ("3", "/uploads/c.txt")]
    fs := [["srv", "app", "public", "uploads", "a.txt"],
           ["srv", "app", "public", "uploads", "b.txt"],
           ["srv", "app", "public", "uploads", "c.txt"],
           ["srv", "app", "public", "uploads", "d.txt"],
           ["srv", "app", "public", "uploads", "e.txt"]] }

def envB : Env :=
  { cwd := ["srv", "app"]
    dbFails := fun _ => false
    dbErrMsg := fun _ => ""
    blobFails := fun _ => true }

def stB : BulkState :=
  { mongo := []
    pg := [("9", "/uploads/r.txt")]
    fs := [["srv", "app", "public", "uploads", "r.txt"]] }

def fiB : FileInfo := ⟨"9", "postgres"⟩

def env8 : Env :=
  { cwd := ["srv", "app"]
    dbFails := fun _ => false
    dbErrMsg := fun _ => ""
    blobFails := fun _ => false }

def st8 : BulkState :=
  { mongo := []
    pg := [("7", "../secret.txt")]
    fs := [["srv", "app", "secret.txt"]] }

def fi8 : FileInfo := ⟨"7", "postgres"⟩

/-! ### Claim about record identity in the UI -/

def pgJsonFile : FileMetadata :=
  { id := .num 1, storageType := "postgres", originalName := "a.json",
    filePath := "/uploads/a.json", extension := "json" }

def mongoJsonFile : FileMetadata :=
  { id := .str "1", storageType := "mongodb", originalName := "b.json",
    filePath := "/uploads/b.json", extension := "json" }


/-! ### Association-list lemmas -/

lemma lookupKey_setKey_self (kvs : List (String × Json)) (k : String) (v : Json) :
    lookupKey (setKey kvs k v) k = some v := by
  induction kvs with
  | nil => simp [setKey, lookupKey]
  | cons kv rest ih =>
      obtain ⟨k0, v0⟩ := kv
      by_cases h : k0 = k
      · simp [setKey, lookupKey, h]
      · simp [setKey, lookupKey, h, ih]

lemma lookupKey_setKey_ne (kvs : List (String × Json)) (k k' : String) (v : Json)
    (h : k ≠ k') : lookupKey (setKey kvs k v) k' = lookupKey kvs k' := by
  induction kvs with
  | nil => simp [setKey, lookupKey, h]
  | cons kv rest ih =>
      obtain ⟨k0, v0⟩ := kv
      by_cases h0 : k0 = k
      · subst h0
        simp [setKey, lookupKey, h]
      · simp [setKey, lookupKey, h0, ih]

lemma lookupKey_eq_none_of_not_keyMem (kvs : List (String × Json)) (k : String)
    (h : keyMem k kvs = false) : lookupKey kvs k = none := by
  induction kvs with
  | nil => simp [lookupKey]
  | cons kv rest ih =>
      obtain ⟨k0, v0⟩ := kv
      by_cases h0 : k = k0
      · simp [keyMem, h0] at h
      · simp [keyMem, h0] at h
        simp [lookupKey, Ne.symm h0, ih h]

/-! ### Case equations for `deepMerge` -/

lemma deepMerge_arr (xs ys : List Json) :
    deepMerge (.arr xs) (.arr ys) = .arr (xs ++ ys) := by
  simp [deepMerge]

lemma deepMerge_obj (kvs1 kvs2 : List (String × Json)) :
    deepMerge (.obj kvs1) (.obj kvs2) = .obj (deepMergeObj kvs1 kvs2) := by
  simp [deepMerge]

/-- The `return obj2` fallthrough: when the inputs are not both objects and
not both arrays, the second value replaces the first. -/
lemma deepMerge_replace (a b : Json) (h1 : (isObj a && isObj b) = false)
    (h2 : (isArr a && isArr b) = false) : deepMerge a b = b := by
  cases a <;> cases b <;> simp_all [deepMerge, isObj, isArr]

lemma deepMerge_null_left (b : Json) : deepMerge .null b = b := by
  cases b <;> simp [deepMerge]

lemma deepMerge_null_right (a : Json) : deepMerge a .null = .null := by
  cases a <;> simp [deepMerge]

lemma deepMergeObj_nil (res : List (String × Json)) : deepMergeObj res [] = res := by
  simp [deepMergeObj]

lemma deepMergeObj_cons (res : List (String × Json)) (k : String) (v : Json)
    (rest : List (String × Json)) :
    deepMergeObj res ((k, v) :: rest)
      = match lookupKey res k with
        | some w => deepMergeObj (setKey res k (deepMerge w v)) rest
        | none => deepMergeObj (setKey res k v) rest := by
  simp [deepMergeObj]

lemma deepMergeObj_cons_found (res : List (String × Json)) (k : String) (v : Json)
    (rest : List (String × Json)) (w : Json) (h : lookupKey res k = some w) :
    deepMergeObj res ((k, v) :: rest)
      = deepMergeObj (setKey res k (deepMerge w v)) rest := by
  rw [deepMergeObj_cons, h]

lemma deepMergeObj_cons_notfound (res : List (String × Json)) (k : String) (v : Json)
    (rest : List (String × Json)) (h : lookupKey res k = none) :
    deepMergeObj res ((k, v) :: rest) = deepMergeObj (setKey res k v) rest := by
  rw [deepMergeObj_cons, h]

/-- The object loop of `deepMerge` realises the key-by-key rule, for any
accumulator and any second object with distinct keys. -/
lemma deepMergeObj_lookup (kvs2 : List (String × Json)) (h2 : nodupKeysB kvs2 = true) :
    ∀ (res : List (String × Json)) (k : String),
      lookupKey (deepMergeObj res kvs2) k
        = mergeLookup (lookupKey res k) (lookupKey kvs2 k) := by
  induction kvs2 with
  | nil =>
      intro res k
      cases h : lookupKey res k <;> simp [deepMergeObj_nil, lookupKey, mergeLookup, h]
  | cons kv rest ih =>
      obtain ⟨k0, v0⟩ := kv
      simp only [nodupKeysB, Bool.and_eq_true, Bool.not_eq_true'] at h2
      obtain ⟨hmem, hnd⟩ := h2
      intro res k
      rw [deepMergeObj_cons]
      by_cases hk : k = k0
      · subst hk
        have hrest : lookupKey rest k = none :=
          lookupKey_eq_none_of_not_keyMem rest k hmem
        cases hres : lookupKey res k with
        | some w =>
            simp only [hres]
            rw [ih hnd, lookupKey_setKey_self]
            simp [mergeLookup, lookupKey, hrest]
        | none =>
            simp only [hres]
            rw [ih hnd, lookupKey_setKey_self]
            simp [mergeLookup, lookupKey, hrest]
      · have hk0 : k0 ≠ k := Ne.symm hk
        cases hres0 : lookupKey res k0 with
        | some w =>
            simp only [hres0]
            rw [ih hnd, lookupKey_setKey_ne _ _ _ _ hk0]
            simp [lookupKey, hk0]
        | none =>
            simp only [hres0]
            rw [ih hnd, lookupKey_setKey_ne _ _ _ _ hk0]
            simp [lookupKey, hk0]

/-! ### Characterization of the object spread (SHALLOW strategy) -/

/-- Lookup in `{ ...kvs1, ...kvs2 }`: the second object's binding wins on
every shared key, the first object's binding persists otherwise. -/
lemma jsSpread_lookup (kvs2 : List (String × Json)) (h2 : nodupKeysB kvs2 = true) :
    ∀ (kvs1 : List (String × Json)) (k : String),
      lookupKey (jsSpread kvs1 kvs2) k
        = match lookupKey kvs2 k with
          | some v => some v
          | none => lookupKey kvs1 k := by
  induction kvs2 with
  | nil => intro kvs1 k; simp [jsSpread, lookupKey]
  | cons kv rest ih =>
      obtain ⟨k0, v0⟩ := kv
      simp only [nodupKeysB, Bool.and_eq_true, Bool.not_eq_true'] at h2
      obtain ⟨hmem, hnd⟩ := h2
      intro kvs1 k
      have hstep : jsSpread kvs1 ((k0, v0) :: rest) = jsSpread (setKey kvs1 k0 v0) rest := rfl
      rw [hstep, ih hnd]
      by_cases hk : k = k0
      · subst hk
        have hrest : lookupKey rest k = none :=
          lookupKey_eq_none_of_not_keyMem rest k hmem
        simp [hrest, lookupKey, lookupKey_setKey_self]
      · have hk0 : k0 ≠ k := Ne.symm hk
        rw [lookupKey_setKey_ne _ _ _ _ hk0]
        simp [lookupKey, hk0]

/-! ### `deepMerge X X` -/

lemma selfDupKvs_append (a b : List (String × Json)) :
    selfDupKvs (a ++ b) = selfDupKvs a ++ selfDupKvs b := by
  induction a with
  | nil => simp [selfDupKvs]
  | cons kv rest ih =>
      obtain ⟨k, v⟩ := kv
      simp [selfDupKvs, ih]

lemma keyMem_selfDupKvs (k : String) (l : List (String × Json)) :
    keyMem k (selfDupKvs l) = keyMem k l := by
  induction l with
  | nil => simp [selfDupKvs]
  | cons kv rest ih =>
      obtain ⟨k0, v0⟩ := kv
      by_cases h : k = k0 <;> simp [selfDupKvs, keyMem, h, ih]

lemma keyMem_append (k : String) (a b : List (String × Json)) :
    keyMem k (a ++ b) = (keyMem k a || keyMem k b) := by
  induction a with
  | nil => simp [keyMem]
  | cons kv rest ih =>
      obtain ⟨k0, v0⟩ := kv
      by_cases h : k = k0 <;> simp [keyMem, h, ih]

lemma lookupKey_append_of_not_keyMem (a b : List (String × Json)) (k : String)
    (h : keyMem k a = false) : lookupKey (a ++ b) k = lookupKey b k := by
  induction a with
  | nil => simp
  | cons kv rest ih =>
      obtain ⟨k0, v0⟩ := kv
      by_cases h0 : k = k0
      · simp [keyMem, h0] at h
      · simp [keyMem, h0] at h
        simp [lookupKey, Ne.symm h0, ih h]

lemma setKey_append_of_not_keyMem (a b : List (String × Json)) (k : String) (v : Json)
    (h : keyMem k a = false) : setKey (a ++ b) k v = a ++ setKey b k v := by
  induction a with
  | nil => simp
  | cons kv rest ih =>
      obtain ⟨k0, v0⟩ := kv
      by_cases h0 : k = k0
      · simp [keyMem, h0] at h
      · simp [keyMem, h0] at h
        simp [setKey, Ne.symm h0, ih h]

/-- In a duplicate-free list `pre ++ (k, v) :: rest`, the key `k` does not
occur in `pre`. -/
lemma keyMem_eq_false_of_nodup_middle (pre : List (String × Json)) (k : String)
    (v : Json) (rest : List (String × Json))
    (h : nodupKeysB (pre ++ (k, v) :: rest) = true) : keyMem k pre = false := by
  induction pre with
  | nil => simp [keyMem]
  | cons kv pre' ih =>
      obtain ⟨k0, v0⟩ := kv
      rw [List.cons_append] at h
      simp only [nodupKeysB, Bool.and_eq_true, Bool.not_eq_true'] at h
      obtain ⟨hmem, hnd⟩ := h
      rw [keyMem_append] at hmem
      have hk0 : ¬ k = k0 := by
        intro hkk
        subst hkk
        simp [keyMem] at hmem
      simp [keyMem, hk0]
      exact ih hnd

lemma deepMergeObj_self_aux :
    ∀ (kvs pre : List (String × Json)),
      nodupKeysB (pre ++ kvs) = true →
      (∀ k v, (k, v) ∈ kvs → deepMerge v v = selfDup v) →
      deepMergeObj (selfDupKvs pre ++ kvs) kvs = selfDupKvs pre ++ selfDupKvs kvs := by
  intro kvs
  induction kvs with
  | nil =>
      intro pre _ _
      simp [deepMergeObj_nil, selfDupKvs]
  | cons kv rest ih =>
      obtain ⟨k, v⟩ := kv
      intro pre hnd hih
      have hkpre : keyMem k pre = false := keyMem_eq_false_of_nodup_middle pre k v rest hnd
      have hkpre' : keyMem k (selfDupKvs pre) = false := by
        rw [keyMem_selfDupKvs]; exact hkpre
      have hlook : lookupKey (selfDupKvs pre ++ (k, v) :: rest) k = some v := by
        rw [lookupKey_append_of_not_keyMem _ _ _ hkpre']
        simp [lookupKey]
      rw [deepMergeObj_cons_found _ _ _ _ _ hlook]
      rw [hih k v (by simp)]
      have hset : setKey (selfDupKvs pre ++ (k, v) :: rest) k (selfDup v)
          = selfDupKvs (pre ++ [(k, v)]) ++ rest := by
        rw [setKey_append_of_not_keyMem _ _ _ _ hkpre']
        simp [setKey, selfDupKvs_append, selfDupKvs]
      rw [hset]
      have hnd' : nodupKeysB ((pre ++ [(k, v)]) ++ rest) = true := by
        rw [List.append_assoc]
        simpa using hnd
      rw [ih (pre ++ [(k, v)]) hnd' (fun k' v' h' => hih k' v' (by simp [h']))]
      simp [selfDupKvs_append, selfDupKvs]

lemma wfKvs_mem (kvs : List (String × Json)) (h : wfKvs kvs = true)
    (k : String) (v : Json) (hm : (k, v) ∈ kvs) : wfB v = true := by
  induction kvs with
  | nil => simp at hm
  | cons kv rest ih =>
      obtain ⟨k0, v0⟩ := kv
      simp only [wfKvs, Bool.and_eq_true] at h
      rcases List.mem_cons.mp hm with hm0 | hm0
      · injection hm0 with hk0 hv0
        subst hv0
        exact h.1
      · exact ih h.2 hm0

lemma sizeOf_val_lt_obj (kvs : List (String × Json)) (k : String) (v : Json)
    (hm : (k, v) ∈ kvs) : sizeOf v < sizeOf (Json.obj kvs) := by
  have h1 : sizeOf (k, v) < sizeOf kvs := List.sizeOf_lt_of_mem hm
  simp only [Prod.mk.sizeOf_spec] at h1
  simp only [Json.obj.sizeOf_spec]
  omega

/-- Merging a well-formed JSON value with itself duplicates the arrays the
merge reaches (root and object values) and leaves everything else intact. -/
lemma deepMerge_self : ∀ (X : Json), wfB X = true → deepMerge X X = selfDup X
  | .null, _ => by simp [deepMerge, selfDup]
  | .bool _, _ => by simp [deepMerge, selfDup]
  | .num _, _ => by simp [deepMerge, selfDup]
  | .str _, _ => by simp [deepMerge, selfDup]
  | .arr xs, _ => by simp [deepMerge_arr, selfDup]
  | .obj kvs, h => by
      simp only [wfB, Bool.and_eq_true] at h
      obtain ⟨hnd, hwf⟩ := h
      have hih : ∀ k v, (k, v) ∈ kvs → deepMerge v v = selfDup v := fun k v hm =>
        deepMerge_self v (wfKvs_mem kvs hwf k v hm)
      have haux := deepMergeObj_self_aux kvs [] (by simpa using hnd) hih
      rw [deepMerge_obj]
      simp only [selfDupKvs, List.nil_append] at haux
      simp [selfDup, haux]
termination_by X => sizeOf X
decreasing_by
  exact sizeOf_val_lt_obj kvs k v hm

/-! ### Bulk loop lemmas -/

lemma processOne_err (env : Env) (st : BulkState) (fi : FileInfo)
    (h : env.dbFails fi = true) : processOne env st fi = .error (env.dbErrMsg fi) := by
  simp [processOne, h]

lemma processOne_ok (env : Env) (st : BulkState) (fi : FileInfo)
    (h : env.dbFails fi = false) : ∃ st', processOne env st fi = .ok st' := by
  unfold processOne
  rw [h]
  by_cases hty : fi.storageType = "mongodb"
  · simp only [hty]
    cases hlk : lookupId st.mongo fi.id <;> simp
  · simp only [hty]
    cases hlk : lookupId st.pg fi.id <;> simp

lemma length_filter_add_length_filter_not (p : FileInfo → Bool) (l : List FileInfo) :
    (l.filter p).length + (l.filter (fun x => !p x)).length = l.length := by
  induction l with
  | nil => simp
  | cons x xs ih =>
      cases h : p x <;> simp [List.filter_cons, h, ← ih] <;> omega

/-- The delete loop visits every element: per failing record it adds exactly
one error line naming the record's id, per non-failing record it counts one
success, and it never aborts early. -/
lemma bulk_fold_spec (env : Env) :
    ∀ (files : List FileInfo) (st : BulkState) (r : BulkResult),
      ((files.foldl (bulkStep env) (st, r)).2.success
          = r.success + (files.filter (fun fi => !env.dbFails fi)).length)
      ∧ ((files.foldl (bulkStep env) (st, r)).2.failed
          = r.failed + (files.filter (fun fi => env.dbFails fi)).length)
      ∧ ((files.foldl (bulkStep env) (st, r)).2.errors
          = r.errors ++ (files.filter (fun fi => env.dbFails fi)).map (errLine env)) := by
  intro files
  induction files with
  | nil => intro st r; simp
  | cons fi rest ih =>
      intro st r
      cases h : env.dbFails fi with
      | true =>
          have hp := processOne_err env st fi h
          simp only [List.foldl_cons, bulkStep, hp]
          obtain ⟨ih1, ih2, ih3⟩ := ih st
            { r with
                failed := r.failed + 1
                errors := r.errors ++ ["Failed to delete file " ++ fi.id ++ ": " ++ env.dbErrMsg fi] }
          refine ⟨?_, ?_, ?_⟩
          · rw [ih1]; simp [List.filter_cons, h]
          · rw [ih2]; simp [List.filter_cons, h]; omega
          · rw [ih3]; simp [List.filter_cons, h, errLine]
      | false =>
          obtain ⟨st', hp⟩ := processOne_ok env st fi h
          simp only [List.foldl_cons, bulkStep, hp]
          obtain ⟨ih1, ih2, ih3⟩ := ih st' { r with success := r.success + 1 }
          refine ⟨?_, ?_, ?_⟩
          · rw [ih1]; simp [List.filter_cons, h]; omega
          · rw [ih2]; simp [List.filter_cons, h]
          · rw [ih3]; simp [List.filter_cons, h]

lemma lookupId_eraseId_self (l : List (String × String)) (id : String) :
    lookupId (eraseId l id) id = none := by
  induction l with
  | nil => simp [eraseId, lookupId]
  | cons kv rest ih =>
      obtain ⟨k, v⟩ := kv
      by_cases h : k = id
      · simp [eraseId, h, ih]
      · simp [eraseId, lookupId, h, ih]

lemma lookupId_eraseId_none (l : List (String × String)) (id id' : String)
    (h : lookupId l id = none) : lookupId (eraseId l id') id = none := by
  induction l with
  | nil => simp [eraseId, lookupId]
  | cons kv rest ih =>
      obtain ⟨k, v⟩ := kv
      by_cases hk : k = id
      · simp [lookupId, hk] at h
      · simp only [lookupId, if_neg hk] at h
        by_cases hk' : k = id'
        · simp [eraseId, hk', ih h]
        · simp [eraseId, hk', lookupId, hk, ih h]

lemma isSome_false_iff_none (o : Option String) : o.isSome = false ↔ o = none := by
  cases o <;> simp

/-- Exhaustive description of a successful per-record iteration: either the
record was absent and the state is untouched, or the record's row/document
was deleted from its routed backend and an unlink of its `filePath` was
attempted. -/
lemma processOne_ok_elim (env : Env) (st : BulkState) (fi : FileInfo) (st' : BulkState)
    (h : processOne env st fi = .ok st') :
    (st' = st)
    ∨ (fi.storageType = "mongodb" ∧ ∃ fp, lookupId st.mongo fi.id = some fp ∧
        st' = { st with mongo := eraseId st.mongo fi.id, fs := tryUnlink env st.fs fp })
    ∨ (¬ fi.storageType = "mongodb" ∧ ∃ fp, lookupId st.pg fi.id = some fp ∧
        st' = { st with pg := eraseId st.pg fi.id, fs := tryUnlink env st.fs fp }) := by
  unfold processOne at h
  cases hdb : env.dbFails fi with
  | true => simp [hdb] at h
  | false =>
      rw [hdb] at h
      by_cases hty : fi.storageType = "mongodb"
      · simp only [hty, if_true, Bool.false_eq_true, if_false] at h
        cases hlk : lookupId st.mongo fi.id with
        | some fp =>
            rw [hlk] at h
            simp only [Except.ok.injEq] at h
            exact Or.inr (Or.inl ⟨hty, fp, rfl, h.symm⟩)
        | none =>
            rw [hlk] at h
            simp only [Except.ok.injEq] at h
            exact Or.inl h.symm
      · simp only [hty, if_false, Bool.false_eq_true] at h
        cases hlk : lookupId st.pg fi.id with
        | some fp =>
            rw [hlk] at h
            simp only [Except.ok.injEq] at h
            exact Or.inr (Or.inr ⟨hty, fp, rfl, h.symm⟩)
        | none =>
            rw [hlk] at h
            simp only [Except.ok.injEq] at h
            exact Or.inl h.symm

/-- A record already absent from its backend stays absent across any other
iteration (iterations only delete). -/
lemma processOne_preserves_absent (env : Env) (st : BulkState) (fj fi : FileInfo)
    (st' : BulkState) (h : processOne env st fj = .ok st')
    (habs : hasRecord st fi = false) : hasRecord st' fi = false := by
  rcases processOne_ok_elim env st fj st' h with h0 | ⟨hty, fp, _, h0⟩ | ⟨hty, fp, _, h0⟩
  · rw [h0]; exact habs
  · subst h0
    unfold hasRecord lookupPath at habs ⊢
    by_cases hfi : fi.storageType = "mongodb"
    · simp only [hfi, if_true] at habs ⊢
      rw [isSome_false_iff_none] at habs ⊢
      exact lookupId_eraseId_none _ _ _ habs
    · simp only [hfi, if_false] at habs ⊢
      exact habs
  · subst h0
    unfold hasRecord lookupPath at habs ⊢
    by_cases hfi : fi.storageType = "mongodb"
    · simp only [hfi, if_true] at habs ⊢
      exact habs
    · simp only [hfi, if_false] at habs ⊢
      rw [isSome_false_iff_none] at habs ⊢
      exact lookupId_eraseId_none _ _ _ habs

/-- After its own successful iteration a record is absent from its backend —
whether it existed (it was deleted) or not (nothing to delete). -/
lemma processOne_self_absent (env : Env) (st : BulkState) (fi : FileInfo)
    (st' : BulkState) (h : processOne env st fi = .ok st') :
    hasRecord st' fi = false := by
  unfold processOne at h
  cases hdb : env.dbFails fi with
  | true => simp [hdb] at h
  | false =>
      rw [hdb] at h
      by_cases hty : fi.storageType = "mongodb"
      · simp only [hty, if_true, Bool.false_eq_true, if_false] at h
        cases hlk : lookupId st.mongo fi.id with
        | some fp =>
            rw [hlk] at h
            simp only [Except.ok.injEq] at h
            subst h
            simp [hasRecord, lookupPath, hty, lookupId_eraseId_self]
        | none =>
            rw [hlk] at h
            simp only [Except.ok.injEq] at h
            subst h
            simp [hasRecord, lookupPath, hty, hlk]
      · simp only [hty, if_false, Bool.false_eq_true] at h
        cases hlk : lookupId st.pg fi.id with
        | some fp =>
            rw [hlk] at h
            simp only [Except.ok.injEq] at h
            subst h
            simp [hasRecord, lookupPath, hty, lookupId_eraseId_self]
        | none =>
            rw [hlk] at h
            simp only [Except.ok.injEq] at h
            subst h
            simp [hasRecord, lookupPath, hty, hlk]

lemma bulk_fold_preserves_absent (env : Env) :
    ∀ (files : List FileInfo) (st : BulkState) (r : BulkResult) (fi : FileInfo),
      hasRecord st fi = false →
      hasRecord (files.foldl (bulkStep env) (st, r)).1 fi = false := by
  intro files
  induction files with
  | nil => intro st r fi habs; simpa using habs
  | cons fj rest ih =>
      intro st r fi habs
      simp only [List.foldl_cons]
      cases hp : processOne env st fj with
      | ok st' =>
          simp only [bulkStep, hp]
          exact ih st' _ fi (processOne_preserves_absent env st fj fi st' hp habs)
      | error msg =>
          simp only [bulkStep, hp]
          exact ih st _ fi habs

/-- Every record of the batch whose iteration does not throw is absent from
its backend when the loop finishes. -/
lemma bulk_fold_absent (env : Env) :
    ∀ (files : List FileInfo) (st : BulkState) (r : BulkResult) (fi : FileInfo),
      fi ∈ files → env.dbFails fi = false →
      hasRecord (files.foldl (bulkStep env) (st, r)).1 fi = false := by
  intro files
  induction files with
  | nil => intro st r fi habs; simp at habs
  | cons fj rest ih =>
      intro st r fi hmem hok
      simp only [List.foldl_cons]
      rcases List.mem_cons.mp hmem with heq | hmem'
      · subst heq
        obtain ⟨st', hp⟩ := processOne_ok env st fi hok
        simp only [bulkStep, hp]
        exact bulk_fold_preserves_absent env rest st' _ fi
          (processOne_self_absent env st fi st' hp)
      · cases hp : processOne env st fj with
        | ok st' =>
            simp only [bulkStep, hp]
            exact ih st' _ fi hmem' hok
        | error msg =>
            simp only [bulkStep, hp]
            exact ih st _ fi hmem' hok

/-! ### Claims about the merge strategies -/

/-- C5: DEEP merge applies key-by-key: at a key present in both objects the
two values are merged recursively by `deepMerge` (which, by its own case
rule, recurses on two objects, concatenates two arrays first-then-second,
and otherwise replaces with the second value); a key present in only one
input keeps that input's value; and on the claim's concrete example the
merge of `{"a":{"x":1},"arr":[1,2]}` with `{"a":{"y":2},"arr":[3]}` is
`{"a":{"x":1,"y":2},"arr":[1,2,3]}`. -/
theorem deep_merge_keybykey_rule (kvs1 kvs2 : List (String × Json))
    (h2 : nodupKeysB kvs2 = true) :
    (deepMerge (.obj kvs1) (.obj kvs2) = .obj (deepMergeObj kvs1 kvs2))
  ∧ (∀ k, lookupKey (deepMergeObj kvs1 kvs2) k
        = mergeLookup (lookupKey kvs1 k) (lookupKey kvs2 k))
  ∧ (∀ xs ys : List Json, deepMerge (.arr xs) (.arr ys) = .arr (xs ++ ys))
  ∧ (∀ a b : Json, (isObj a && isObj b) = false → (isArr a && isArr b) = false →
        deepMerge a b = b)
  ∧ deepMerge (.obj c5leftKvs) (.obj c5rightKvs) = c5merged := by
  refine ⟨deepMerge_obj kvs1 kvs2, deepMergeObj_lookup kvs2 h2 kvs1,
    deepMerge_arr, deepMerge_replace, ?_⟩
  simp [c5leftKvs, c5rightKvs, c5merged, deepMerge, deepMergeObj, lookupKey, setKey]

theorem deep_merge_keybykey_rule_witness :
    nodupKeysB c5rightKvs = true
    ∧ deepMerge (.obj c5leftKvs) (.obj c5rightKvs) = c5merged :=
  ⟨by decide, (deep_merge_keybykey_rule c5leftKvs c5rightKvs (by decide)).2.2.2.2⟩

/-- C6: SHALLOW merge of two JSON objects is the object spread
`{ ...kvs1, ...kvs2 }`: its key set is the union of the two key sets, the
second input's value wins on every shared key, and on the claim's concrete
instance the merge of `{"a":1,"b":2}` with `{"b":3,"c":4}` is exactly
`{"a":1,"b":3,"c":4}`. -/
theorem shallow_merge_rule (kvs1 kvs2 : List (String × Json))
    (h2 : nodupKeysB kvs2 = true) :
    (shallowMerge (.obj kvs1) (.obj kvs2) = some (.obj (jsSpread kvs1 kvs2)))
  ∧ (∀ k, lookupKey (jsSpread kvs1 kvs2) k
        = match lookupKey kvs2 k with
          | some v => some v
          | none => lookupKey kvs1 k)
  ∧ (∀ k, (lookupKey (jsSpread kvs1 kvs2) k).isSome
        = ((lookupKey kvs1 k).isSome || (lookupKey kvs2 k).isSome))
  ∧ jsSpread c6left c6right = c6merged := by
  refine ⟨rfl, jsSpread_lookup kvs2 h2 kvs1, ?_, ?_⟩
  · intro k
    rw [jsSpread_lookup kvs2 h2 kvs1]
    cases h1 : lookupKey kvs1 k <;> cases hr : lookupKey kvs2 k <;> simp [h1, hr]
  · simp [c6left, c6right, c6merged, jsSpread, setKey]

theorem shallow_merge_rule_witness :
    nodupKeysB c6right = true ∧ jsSpread c6left c6right = c6merged :=
  ⟨by decide, (shallow_merge_rule c6left c6right (by decide)).2.2.2⟩

/-- C9 as stated is false: merging the nested array `[[1]]` with itself
yields `[[1],[1]]` — the outer array is self-concatenated but the inner
array `[1]`, which is also "an array inside X", is NOT replaced by its
self-concatenation `[1,1]`; the literal reading of the claim predicts
`[[1,1],[1,1]]`. -/
theorem deep_self_merge_counterexample :
    deepMerge c9X c9X = .arr [.arr [.num 1], .arr [.num 1]]
  ∧ claimArrayDup c9X = .arr [.arr [.num 1, .num 1], .arr [.num 1, .num 1]]
  ∧ deepMerge c9X c9X ≠ claimArrayDup c9X := by
  have h1 : deepMerge c9X c9X = .arr [.arr [.num 1], .arr [.num 1]] := by
    simp [c9X, deepMerge]
  have h2 : claimArrayDup c9X = .arr [.arr [.num 1, .num 1], .arr [.num 1, .num 1]] := by
    simp [c9X, claimArrayDup, claimArrayDupList]
  refine ⟨h1, h2, ?_⟩
  rw [h1, h2]
  intro hcontra
  simp at hcontra

/-- C9 (amended): DEEP merge of a well-formed JSON value `X` with itself
reproduces `X` except that each array the merge reaches — the root value or
a value under object keys — is replaced by its self-concatenation with its
elements left unchanged; arrays nested inside other arrays are duplicated
as elements of their parent but not themselves re-concatenated. -/
theorem deep_self_merge_amended (X : Json) (h : wfB X = true) :
    deepMerge X X = selfDup X :=
  deepMerge_self X h

theorem deep_self_merge_amended_witness :
    wfB (Json.obj c5leftKvs) = true
    ∧ deepMerge (.obj c5leftKvs) (.obj c5leftKvs) = selfDup (.obj c5leftKvs) := by
  have hwf : wfB (Json.obj c5leftKvs) = true := by
    simp [c5leftKvs, wfB, wfKvs, wfList, nodupKeysB, keyMem]
  exact ⟨hwf, deep_self_merge_amended (.obj c5leftKvs) hwf⟩

/-- C10: DEEP merge treats `null` as a scalar, never as an object: with
`null` on either side (top-level, and hence at any key, per the key-by-key
rule) the result is the second input's value — `deepMerge` never recurses
into `null`.  The last two conjuncts spell this out at a shared key of two
objects whose value is `null` in the first resp. the second input. -/
theorem deep_merge_null_rule :
    (∀ v, deepMerge .null v = v)
  ∧ (∀ v, deepMerge v .null = .null)
  ∧ (∀ kvs1 kvs2 k v, nodupKeysB kvs2 = true →
       lookupKey kvs1 k = some .null → lookupKey kvs2 k = some v →
       lookupKey (deepMergeObj kvs1 kvs2) k = some v)
  ∧ (∀ kvs1 kvs2 k w, nodupKeysB kvs2 = true →
       lookupKey kvs1 k = some w → lookupKey kvs2 k = some .null →
       lookupKey (deepMergeObj kvs1 kvs2) k = some .null) := by
  refine ⟨deepMerge_null_left, deepMerge_null_right, ?_, ?_⟩
  · intro kvs1 kvs2 k v hnd h1 h2
    rw [deepMergeObj_lookup kvs2 hnd kvs1 k, h1, h2]
    simp [mergeLookup, deepMerge_null_left]
  · intro kvs1 kvs2 k w hnd h1 h2
    rw [deepMergeObj_lookup kvs2 hnd kvs1 k, h1, h2]
    simp [mergeLookup, deepMerge_null_right]

theorem deep_merge_null_rule_witness :
    (nodupKeysB c10kvs2 = true
      ∧ lookupKey c10kvs1 "a" = some .null
      ∧ lookupKey c10kvs2 "a" = some (.num 7)
      ∧ lookupKey (deepMergeObj c10kvs1 c10kvs2) "a" = some (.num 7))
    ∧ lookupKey (deepMergeObj c10kvs1 c10kvs2) "b" = some .null := by
  have hnd : nodupKeysB c10kvs2 = true := by decide
  have h1a : lookupKey c10kvs1 "a" = some .null := by simp [c10kvs1, lookupKey]
  have h2a : lookupKey c10kvs2 "a" = some (.num 7) := by simp [c10kvs2, lookupKey]
  have h1b : lookupKey c10kvs1 "b" = some (.num 5) := by simp [c10kvs1, lookupKey]
  have h2b : lookupKey c10kvs2 "b" = some .null := by simp [c10kvs2, lookupKey]
  exact ⟨⟨hnd, h1a, h2a, deep_merge_null_rule.2.2.1 c10kvs1 c10kvs2 "a" (.num 7) hnd h1a h2a⟩,
    deep_merge_null_rule.2.2.2 c10kvs1 c10kvs2 "b" (.num 5) hnd h1b h2b⟩

/-! ### Claims about the bulk delete route -/

/-- C1: during bulk delete, a per-record failure is caught by the loop's
`catch`: it contributes exactly one entry to `errors` naming the offending
id, every other record is still processed (successes and failures add up to
the full batch length), and the route answers with the normal 200 payload —
no per-record error is thrown out of the batch. -/
theorem bulk_delete_isolates_failures (env : Env) (st : BulkState)
    (files : List FileInfo) (hne : files ≠ []) :
    ∃ st' r, POSTbulk env st (some "delete") (some files)
        = (.okResp ("Deleted " ++ toString r.success ++ " files successfully") r, st')
      ∧ r.success + r.failed = files.length
      ∧ r.failed = (files.filter (fun fi => env.dbFails fi)).length
      ∧ r.errors = (files.filter (fun fi => env.dbFails fi)).map (errLine env) := by
  refine ⟨(runBulkDelete env st files).1, (runBulkDelete env st files).2, ?_, ?_, ?_, ?_⟩
  · have hemp : files.isEmpty = false := by
      cases files with
      | nil => exact absurd rfl hne
      | cons a l => rfl
    simp [POSTbulk, hemp]
  · obtain ⟨h1, h2, _⟩ := bulk_fold_spec env files st ⟨0, 0, []⟩
    simp only [Nat.zero_add] at h1 h2
    unfold runBulkDelete
    rw [h1, h2]
    have := length_filter_add_length_filter_not (fun fi => env.dbFails fi) files
    omega
  · have h2 := (bulk_fold_spec env files st ⟨0, 0, []⟩).2.1
    unfold runBulkDelete
    simpa using h2
  · have h3 := (bulk_fold_spec env files st ⟨0, 0, []⟩).2.2
    unfold runBulkDelete
    simpa using h3

theorem bulk_delete_isolates_failures_witness :
    filesW ≠ []
    ∧ (∃ st' r, POSTbulk envW stW (some "delete") (some filesW)
        = (.okResp ("Deleted " ++ toString r.success ++ " files successfully") r, st')
      ∧ r.success + r.failed = filesW.length
      ∧ r.failed = (filesW.filter (fun fi => envW.dbFails fi)).length
      ∧ r.errors = (filesW.filter (fun fi => envW.dbFails fi)).map (errLine envW)) :=
  ⟨by decide, bulk_delete_isolates_failures envW stW filesW (by decide)⟩

/-- C2 is false on the code: on a batch of five existing ids and one id
present in neither backend, the loop finds no row/document for the missing
id, skips the deletion silently and still executes `results.success++`, so
the route reports succeeded = 6 and failed = 0 — not succeeded = 5,
failed = 1 as claimed. -/
theorem bulk_five_plus_missing_counterexample :
    hasRecord st0 ⟨"6", "postgres"⟩ = false
  ∧ hasRecord st0 ⟨"6", "mongodb"⟩ = false
  ∧ (runBulkDelete env0 st0 files6).2.success = 6
  ∧ (runBulkDelete env0 st0 files6).2.failed = 0
  ∧ ¬ ((runBulkDelete env0 st0 files6).2.success = 5
        ∧ (runBulkDelete env0 st0 files6).2.failed = 1) := by
  refine ⟨by decide, by decide, by decide, by decide, by decide⟩

/-- C2 (amended): on any six-record batch with no backend faults — in
particular five existing ids plus one id present in neither backend — the
route reports succeeded = 6, failed = 0 with an empty error list (the
missing record is silently counted as a success, its deletion a no-op), and
every targeted record, in particular the five existing ones, is absent from
its backend afterward. -/
theorem bulk_six_records_amended (env : Env) (st : BulkState) (files : List FileInfo)
    (hlen : files.length = 6)
    (hok : ∀ fi ∈ files, env.dbFails fi = false) :
    (runBulkDelete env st files).2.success = 6
  ∧ (runBulkDelete env st files).2.failed = 0
  ∧ (runBulkDelete env st files).2.errors = []
  ∧ ∀ fi ∈ files, hasRecord (runBulkDelete env st files).1 fi = false := by
  obtain ⟨h1, h2, h3⟩ := bulk_fold_spec env files st ⟨0, 0, []⟩
  have hfilter : files.filter (fun fi => env.dbFails fi) = [] := by
    rw [List.filter_eq_nil_iff]
    intro fi hmem
    simp [hok fi hmem]
  have hfilter' : files.filter (fun fi => !env.dbFails fi) = files := by
    rw [List.filter_eq_self]
    intro fi hmem
    simp [hok fi hmem]
  refine ⟨?_, ?_, ?_, ?_⟩
  · unfold runBulkDelete; rw [h1, hfilter', hlen]
  · unfold runBulkDelete; rw [h2, hfilter]; rfl
  · unfold runBulkDelete; rw [h3, hfilter]; rfl
  · intro fi hmem
    exact bulk_fold_absent env files st ⟨0, 0, []⟩ fi hmem (hok fi hmem)

theorem bulk_six_records_amended_witness :
    files6.length = 6
    ∧ (∀ fi ∈ files6, env0.dbFails fi = false)
    ∧ ((runBulkDelete env0 st0 files6).2.success = 6
      ∧ (runBulkDelete env0 st0 files6).2.failed = 0
      ∧ (runBulkDelete env0 st0 files6).2.errors = []
      ∧ ∀ fi ∈ files6, hasRecord (runBulkDelete env0 st0 files6).1 fi = false) :=
  ⟨rfl, by decide, bulk_six_records_amended env0 st0 files6 rfl (by decide)⟩

/-- C3: deleting an existing record removes the metadata row/document from
its routed backend first; the blob unlink is then attempted at the
`filePath` read from that metadata, and an unlink failure only changes
nothing on the filesystem — the iteration still counts as a success (one
`success` increment, no error entry) and the metadata record stays deleted. -/
theorem delete_metadata_first_blob_warning (env : Env) (st : BulkState) (fi : FileInfo)
    (fp : String) (hdb : env.dbFails fi = false) (hfound : lookupPath st fi = some fp) :
    ∃ st', processOne env st fi = .ok st'
      ∧ hasRecord st' fi = false
      ∧ st'.fs = tryUnlink env st.fs fp
      ∧ (env.blobFails (unlinkTarget env.cwd fp) = true → st'.fs = st.fs)
      ∧ (∀ r : BulkResult, bulkStep env (st, r) fi
            = (st', { r with success := r.success + 1 })) := by
  by_cases hty : fi.storageType = "mongodb"
  · simp only [lookupPath, hty, if_true] at hfound
    refine ⟨{ st with mongo := eraseId st.mongo fi.id, fs := tryUnlink env st.fs fp },
      ?_, ?_, rfl, ?_, ?_⟩
    · simp [processOne, hdb, hty, hfound]
    · simp [hasRecord, lookupPath, hty, lookupId_eraseId_self]
    · intro hb
      simp [tryUnlink, hb]
    · intro r
      have hp : processOne env st fi
          = .ok { st with mongo := eraseId st.mongo fi.id, fs := tryUnlink env st.fs fp } := by
        simp [processOne, hdb, hty, hfound]
      simp [bulkStep, hp]
  · simp only [lookupPath, hty, if_false] at hfound
    refine ⟨{ st with pg := eraseId st.pg fi.id, fs := tryUnlink env st.fs fp },
      ?_, ?_, rfl, ?_, ?_⟩
    · simp [processOne, hdb, hty, hfound]
    · simp [hasRecord, lookupPath, hty, lookupId_eraseId_self]
    · intro hb
      simp [tryUnlink, hb]
    · intro r
      have hp : processOne env st fi
          = .ok { st with pg := eraseId st.pg fi.id, fs := tryUnlink env st.fs fp } := by
        simp [processOne, hdb, hty, hfound]
      simp [bulkStep, hp]

theorem delete_metadata_first_blob_warning_witness :
    envB.dbFails fiB = false
    ∧ lookupPath stB fiB = some "/uploads/r.txt"
    ∧ (∃ st', processOne envB stB fiB = .ok st'
      ∧ hasRecord st' fiB = false
      ∧ st'.fs = tryUnlink envB stB.fs "/uploads/r.txt"
      ∧ (envB.blobFails (unlinkTarget envB.cwd "/uploads/r.txt") = true → st'.fs = stB.fs)
      ∧ (∀ r : BulkResult, bulkStep envB (stB, r) fiB
            = (st', { r with success := r.success + 1 }))) :=
  ⟨rfl, by decide,
    delete_metadata_first_blob_warning envB stB fiB "/uploads/r.txt" rfl (by decide)⟩

/-- C7: the bulk route rejects an empty (or missing) `files` array with the
400 response `Action and files array are required` before running the loop:
no backend is queried and the state — both metadata backends and the blob
filesystem — is returned unchanged; the answer is not a success with
`succeeded = 0`. -/
theorem bulk_empty_input_rejected (env : Env) (st : BulkState) (action : Option String) :
    POSTbulk env st action (some [])
        = (.badRequest "Action and files array are required", st)
    ∧ POSTbulk env st action none
        = (.badRequest "Action and files array are required", st) := by
  constructor <;> simp [POSTbulk]

/-- C8 is false on the code: the route performs no path validation at all.
For the stored path `"../secret.txt"` the computed unlink target
`path.join(cwd, "public", cleanPath)` normalizes to `<cwd>/secret.txt`,
outside the blob root `<cwd>/public`; the iteration raises no InvalidInput,
reports success, and unlinks the file outside the root (the filesystem
entry `<cwd>/secret.txt` is gone afterwards). -/
theorem bulk_path_traversal_counterexample :
    unlinkTarget env8.cwd "../secret.txt" = ["srv", "app", "secret.txt"]
  ∧ underPublicRoot env8.cwd (unlinkTarget env8.cwd "../secret.txt") = false
  ∧ processOne env8 st8 fi8 = .ok { mongo := [], pg := [], fs := [] } := by
  refine ⟨by decide, by decide, ?_⟩
  have h : processOne env8 st8 fi8
      = .ok { st8 with pg := eraseId st8.pg "7", fs := tryUnlink env8 st8.fs "../secret.txt" } := by
    simp [processOne, env8, st8, fi8, lookupId]
  rw [h]
  have h2 : eraseId st8.pg "7" = [] := by decide
  have h3 : tryUnlink env8 st8.fs "../secret.txt" = [] := by decide
  rw [h2, h3]
  rfl

/-- C8 (amended): blob deletion in the bulk route performs no containment
check: the unlink target is `path.join(cwd, "public", cleanPath)` and the
unlink is attempted there even when the normalized target resolves outside
the blob root `<cwd>/public` (e.g. via `..` segments in the stored path) —
the record's iteration succeeds, no InvalidInput is raised, and the file at
the outside-root target is removed. -/
theorem bulk_no_path_validation_amended (env : Env) (st : BulkState) (fi : FileInfo)
    (fp : String) (hdb : env.dbFails fi = false) (hfound : lookupPath st fi = some fp)
    (hblob : env.blobFails (unlinkTarget env.cwd fp) = false)
    (hout : underPublicRoot env.cwd (unlinkTarget env.cwd fp) = false) :
    ∃ st', processOne env st fi = .ok st'
      ∧ st'.fs = st.fs.filter (fun q => !(q = unlinkTarget env.cwd fp : Bool)) := by
  by_cases hty : fi.storageType = "mongodb"
  · simp only [lookupPath, hty, if_true] at hfound
    refine ⟨{ st with mongo := eraseId st.mongo fi.id, fs := tryUnlink env st.fs fp }, ?_, ?_⟩
    · simp [processOne, hdb, hty, hfound]
    · simp [tryUnlink, hblob]
  · simp only [lookupPath, hty, if_false] at hfound
    refine ⟨{ st with pg := eraseId st.pg fi.id, fs := tryUnlink env st.fs fp }, ?_, ?_⟩
    · simp [processOne, hdb, hty, hfound]
    · simp [tryUnlink, hblob]

theorem bulk_no_path_validation_amended_witness :
    env8.dbFails fi8 = false
    ∧ lookupPath st8 fi8 = some "../secret.txt"
    ∧ env8.blobFails (unlinkTarget env8.cwd "../secret.txt") = false
    ∧ underPublicRoot env8.cwd (unlinkTarget env8.cwd "../secret.txt") = false
    ∧ (∃ st', processOne env8 st8 fi8 = .ok st'
      ∧ st'.fs = st8.fs.filter (fun q => !(q = unlinkTarget env8.cwd "../secret.txt" : Bool))) :=
  ⟨rfl, by decide, rfl, by decide,
    bulk_no_path_validation_amended env8 st8 fi8 "../secret.txt" rfl (by decide) rfl (by decide)⟩

/-- C4: the merge modal's dropdown resolution violates the `(id, backend)`
identity invariant.  With a Postgres record of numeric id `1` and a MongoDB
record of id `"1"` both offered for merging, choosing the MongoDB file
(option value `"1"`) resolves — via `find` on `String(f.id)` alone — to the
Postgres record, conflating two records from different backends that share
a numeric id.  For contrast, the page-level selection toggle keys on the
`(id, storageType)` pair and does distinguish the two. -/
theorem merge_selection_conflates_backends :
    pgJsonFile.storageType ≠ mongoJsonFile.storageType
  ∧ jsValToString pgJsonFile.id = jsValToString mongoJsonFile.id
  ∧ resolveMergeSelection (jsonFilesOf [pgJsonFile, mongoJsonFile])
        (jsValToString mongoJsonFile.id) = some pgJsonFile
  ∧ pgJsonFile ≠ mongoJsonFile
  ∧ isSelectedIn [pgJsonFile] mongoJsonFile = false := by
  refine ⟨by decide, by decide, by decide, by decide, by decide⟩
